import Mathlib

/-!
Shallow embedding of the ebiten-ecs library (package `ecs`): the boolean
filter algebra and the `Where` pipeline from `filter.go`, the spatial
predicates from `spatial.go`, the system manager from `system.go`, and —
where the entity store itself is only described by the specification —
spec-modelled component stores and the conjunctive query engine.
-/

namespace EbitenEcs

/-- Entity identifiers are opaque unsigned integers (`type EntityID = ID`,
`ID` an unsigned integer); zero is reserved as "undefined". -/
abbrev EntityID := Nat

/-! ### Filter algebra (`filter.go`)

`type Filter[C any] func(*C) bool`: a pure predicate over one component
value.  The Go code passes the component by pointer; the embedding passes
the value itself. -/

/-- Embedding of `Filter[C]`: a predicate over a component value. -/
def Filter (C : Type) : Type := C → Bool

/-- Embedding of `And[C](filters ...Filter[C])`: loops over the filters and
returns `false` at the first filter rejecting the component, `true` if none
does. -/
def And {C : Type} (filters : List (Filter C)) : Filter C :=
  fun component =>
    match filters with
    | [] => true
    | filter :: rest =>
      if !(filter component) then false else And rest component

/-- Embedding of `Or[C](filters ...Filter[C])`: loops over the filters and
returns `true` at the first filter accepting the component, `false` if none
does. -/
def Or {C : Type} (filters : List (Filter C)) : Filter C :=
  fun component =>
    match filters with
    | [] => false
    | filter :: rest =>
      if filter component then true else Or rest component

/-- Embedding of `Not[C](filter Filter[C])`: pointwise boolean negation. -/
def Not {C : Type} (filter : Filter C) : Filter C :=
  fun component => !(filter component)

/-! ### The `Where` pipeline (`filter.go`)

`Where[C](em, seq, filter)` returns an `iter.Seq[EntityID]`, i.e. a
push-iterator `func(yield func(EntityID) bool)`.  The embedding makes the
iteration protocol explicit: the source sequence is the list of entities it
would produce, the component lookup `GetComponent[C](em, id)` is an
abstract map `EntityID → Option C`, and the consumer is a stateful
`yield : σ → EntityID → σ × Bool` whose boolean says whether to continue.
`whereRun` mirrors the loop body of `Where` and records the final consumer
state, how many entities were pulled from the source, and whether the loop
ended by the consumer's `break`. -/

/-- Outcome of running the `Where` loop against a consumer: final consumer
state, number of entities pulled from the source sequence, and whether the
loop exited via `break` (the consumer's yield returned `false`). -/
structure RunOutcome (σ : Type) where
  state : σ
  pulled : Nat
  stopped : Bool
  deriving Repr, DecidableEq

/-- Embedding of the loop of `Where[C]`: for each `id` pulled from the
source, fetch the component (`GetComponent`); if absent, `continue`; if the
filter accepts it, call `yield id` and `break` when the consumer returns
`false`. -/
def whereRun {C σ : Type} (get : EntityID → Option C) (filter : Filter C)
    (yield : σ → EntityID → σ × Bool) : List EntityID → σ → RunOutcome σ
  | [], s => ⟨s, 0, false⟩
  | id :: rest, s =>
    match get id with
    | none =>
      let r := whereRun get filter yield rest s
      ⟨r.state, r.pulled + 1, r.stopped⟩
    | some comp =>
      if filter comp then
        match yield s id with
        | (s', true) =>
          let r := whereRun get filter yield rest s'
          ⟨r.state, r.pulled + 1, r.stopped⟩
        | (s', false) => ⟨s', 1, true⟩
      else
        let r := whereRun get filter yield rest s
        ⟨r.state, r.pulled + 1, r.stopped⟩

/-- The collecting consumer: accumulates every yielded entity and never
stops.  Running `Where` against it observes the full output sequence. -/
def collect : List EntityID → EntityID → List EntityID × Bool :=
  fun s id => (s ++ [id], true)

/-- The predicate a source entity must satisfy to be yielded by `Where`:
it currently holds the component and the filter accepts the value. -/
def whereKeeps {C : Type} (get : EntityID → Option C) (filter : Filter C)
    (id : EntityID) : Bool :=
  match get id with
  | none => false
  | some comp => filter comp

/-! ### Spatial predicates (`spatial.go`)

The Go functions operate on `f64.Vec2` and `float64`.  The embedding uses
exact rational arithmetic in place of IEEE float64: the compared
expressions are the literal arithmetic of the source. -/

/-- Embedding of `WithinBoundsCheck(position, minX, minY, maxX, maxY)`:
`position[0] >= minX && position[0] <= maxX && position[1] >= minY &&
position[1] <= maxY`. -/
def WithinBoundsCheck (posX posY minX minY maxX maxY : ℚ) : Bool :=
  decide (posX ≥ minX) && decide (posX ≤ maxX) &&
    decide (posY ≥ minY) && decide (posY ≤ maxY)

/-- Embedding of `WithinRadiusCheck(position, centerX, centerY, radius)`:
`dx := position[0]-centerX; dy := position[1]-centerY;
dx*dx+dy*dy <= radius*radius`. -/
def WithinRadiusCheck (posX posY centerX centerY radius : ℚ) : Bool :=
  let dx := posX - centerX
  let dy := posY - centerY
  let distanceSquared := dx * dx + dy * dy
  decide (distanceSquared ≤ radius * radius)

/-! ### Spec-modelled component store and query engine

The files `component.go` and `entity.go` (the `ComponentContainer`, the
`EntityManager` and `Query`/`Query2`) are not among the provided sources;
only their tests, the README and the specification describe them.  The
definitions below are therefore modelled from the spec (§3, §4.1–4.3). -/

/-- Modelled from the spec: the per-type component store of `component.go`
(missing from the sources).  §3: "a pool of reusable C instances", "a
mapping entity → dense slot (presence index)", "an inverse mapping slot →
entity".  The model keeps the inverse mapping (slot → entity) as the dense
list `dense`; the forward mapping is its first-occurrence index and the
pool slot of an entity is its dense slot. -/
structure Store (C : Type) where
  dense : List EntityID
  pool : List C

/-- Modelled from the spec: `Count()` — "O(1) number of entities currently
holding the component" (§4.1). -/
def Store.count {C : Type} (s : Store C) : Nat :=
  s.dense.length

/-- First-occurrence index of an entity in a dense entity list. -/
def findSlot : List EntityID → EntityID → Option Nat
  | [], _ => none
  | e :: rest, id =>
    if e == id then some 0 else (findSlot rest id).map (· + 1)

/-- Modelled from the spec: the store's presence index — the dense slot of
an entity, `none` when the entity does not hold the component. -/
def Store.slotOf {C : Type} (s : Store C) (id : EntityID) : Option Nat :=
  findSlot s.dense id

/-- Modelled from the spec: `Get(entity) → (ref, present?)` — "O(1)
presence check; returns absent rather than failing when the entity lacks
the component" (§4.1).  The returned reference is modelled as the dense
slot the component occupies. -/
def Store.get {C : Type} (s : Store C) (id : EntityID) : Option Nat :=
  s.slotOf id

/-- Modelled from the spec: `Add(entity) → component ref` — "idempotent —
if entity already has a slot, returns the existing instance; otherwise
reuses/grows the pool, assigns a dense slot, records both mappings, invokes
the optional initializer" (§4.1).  Returns the updated store and the slot
(the reference) of the entity's component; `init` is the component type's
initializer hook producing the freshly attached instance. -/
def Store.add {C : Type} (s : Store C) (id : EntityID) (init : C) :
    Store C × Nat :=
  match s.slotOf id with
  | some slot => (s, slot)
  | none => (⟨s.dense ++ [id], s.pool ++ [init]⟩, s.dense.length)

/-- Modelled from the spec: `Iterate()` / `Query<C>()` — "produces a lazy,
finite sequence of entities currently holding the component, in current
dense order" (§4.1); "For N=1, delegates directly to that type's store
iteration" (§4.3). -/
def query {C : Type} (s : Store C) : List EntityID :=
  s.dense

/-- Modelled from the spec: the N=2 conjunctive join with an explicit
driver choice — "iterate the driver's dense sequence and, for each
candidate entity, perform an O(1) presence check against each of the
remaining stores; yield the entity only if present in all of them" (§4.3).
`driverIsFirst` says which of the two stores drives the iteration. -/
def query2Driver {C₁ C₂ : Type} (s₁ : Store C₁) (s₂ : Store C₂)
    (driverIsFirst : Bool) : List EntityID :=
  if driverIsFirst then
    s₁.dense.filter (fun id => (s₂.slotOf id).isSome)
  else
    s₂.dense.filter (fun id => (s₁.slotOf id).isSome)

/-- Modelled from the spec: `Query2<C1,C2>()` — "compare the current
`Count()` of the candidate stores and choose the smallest as the driver"
(§4.3). -/
def query2 {C₁ C₂ : Type} (s₁ : Store C₁) (s₂ : Store C₂) :
    List EntityID :=
  query2Driver s₁ s₂ (!decide (s₂.count < s₁.count))

/-! ### System manager (`system.go`)

A `System` is observed through the interface the manager uses: its `ID()`,
its `Priority()`, whether its base system's entity-manager and game
pointers are non-nil (`canUpdate`), and what its `Update()` call returns
(`none` for a nil error, `some e` for error `e`).  The error type `ε` is
abstract. -/

/-- Observable face of a `System` as used by `SystemManager`. -/
structure GoSystem (ε : Type) where
  id : Nat
  priority : Int
  hasEntityManager : Bool
  hasGame : Bool
  updateResult : Option ε
  deriving Repr, DecidableEq

/-- Placeholder used for out-of-range indexing (Go never reads it on the
executed paths). -/
def dummySystem {ε : Type} : GoSystem ε :=
  ⟨0, 0, false, false, none⟩

/-- Embedding of `BaseSystem.canUpdate()`:
`s.entityManager != nil && s.game != nil`. -/
def canUpdate {ε : Type} (s : GoSystem ε) : Bool :=
  s.hasEntityManager && s.hasGame

/-- Embedding of the `SystemManager` struct: the systems slice plus whether
the manager's own entity-manager and game pointers are non-nil. -/
structure SystemManager (ε : Type) where
  systems : List (GoSystem ε)
  hasEntityManager : Bool
  hasGame : Bool
  deriving Repr, DecidableEq

/-- Embedding of `NewSystemManager(entityManager, game)`: empty systems
slice, stores the two injected pointers. -/
def newSystemManager (ε : Type) (hasEntityManager hasGame : Bool) :
    SystemManager ε :=
  ⟨[], hasEntityManager, hasGame⟩

/-- Embedding of `sortSystems()`: `slices.SortStableFunc` with a
comparison by `Priority()`; modelled by a stable sort with respect to
`priority ≤ priority`. -/
def sortSystems {ε : Type} (systems : List (GoSystem ε)) :
    List (GoSystem ε) :=
  systems.insertionSort (fun a b => a.priority ≤ b.priority)

/-- Embedding of `SystemManager.Add(systems ...System)`: returns unchanged
on an empty argument list; otherwise fills each added system's nil
entity-manager/game pointer from the manager, appends, and re-sorts. -/
def SystemManager.add {ε : Type} (sm : SystemManager ε)
    (systems : List (GoSystem ε)) : SystemManager ε :=
  if systems.length == 0 then sm
  else
    let patched := systems.map (fun s =>
      { s with
        hasEntityManager := s.hasEntityManager || sm.hasEntityManager,
        hasGame := s.hasGame || sm.hasGame })
    { sm with systems := sortSystems (sm.systems ++ patched) }

/-- The comparison closure passed to `slices.BinarySearchFunc` in
`SystemManager.Remove`: orders a system against a target `SystemID`. -/
def cmpSystemID {ε : Type} (s : GoSystem ε) (id : Nat) : Int :=
  if s.id < id then -1 else if s.id > id then 1 else 0

/-- The loop of Go's `slices.BinarySearchFunc`: half-open interval
`[i, j)`, probing `h = (i+j)/2`; fuel makes the recursion structural (the
interval shrinks every step, so `length + 1` fuel is never exhausted). -/
def binarySearchLoop {ε : Type} (xs : List (GoSystem ε)) (target : Nat) :
    Nat → Nat → Nat → Nat
  | 0, i, _ => i
  | fuel + 1, i, j =>
    if i < j then
      let h := (i + j) / 2
      if cmpSystemID (xs.getD h dummySystem) target < 0 then
        binarySearchLoop xs target fuel (h + 1) j
      else
        binarySearchLoop xs target fuel i h
    else i

/-- Embedding of `slices.BinarySearchFunc(sm.systems, systemID, cmp)`:
returns the insertion position and whether the element at that position
compares equal. -/
def binarySearchFunc {ε : Type} (xs : List (GoSystem ε)) (target : Nat) :
    Nat × Bool :=
  let n := xs.length
  let i := binarySearchLoop xs target (n + 1) 0 n
  (i, decide (i < n) && decide (cmpSystemID (xs.getD i dummySystem) target = 0))

/-- Embedding of `SystemManager.Remove(systemID)`: binary-searches the
systems slice by ID; when not found, returns unchanged; when found,
overwrites the found index with the last element and truncates the slice
by one (swap-removal), then tears the removed system down. -/
def SystemManager.remove {ε : Type} (sm : SystemManager ε)
    (systemID : Nat) : SystemManager ε :=
  let r := binarySearchFunc sm.systems systemID
  if !r.2 then sm
  else
    { sm with
      systems :=
        (sm.systems.set r.1
          (sm.systems.getD (sm.systems.length - 1) dummySystem)).dropLast }

/-- The loop of `SystemManager.Update()`: systems whose `canUpdate()` is
false are skipped (`continue`); otherwise `Update()` is called — its ID is
recorded in the returned trace — and a non-nil error is returned at once,
wrapped with the failing system's ID.  Returns the trace of updated system
IDs and the final result. -/
def updateLoop {ε : Type} : List (GoSystem ε) → List Nat × Option (Nat × ε)
  | [] => ([], none)
  | s :: rest =>
    if !(canUpdate s) then updateLoop rest
    else
      match s.updateResult with
      | some e => ([s.id], some (s.id, e))
      | none =>
        let r := updateLoop rest
        (s.id :: r.1, r.2)

/-- Embedding of `SystemManager.Update()`. -/
def SystemManager.update {ε : Type} (sm : SystemManager ε) :
    List Nat × Option (Nat × ε) :=
  updateLoop sm.systems

/-- Decidable check that a systems slice is sorted by nondecreasing
`Priority()`. -/
def prioritiesSorted {ε : Type} : List (GoSystem ε) → Bool
  | [] => true
  | [_] => true
  | a :: b :: rest =>
    decide (a.priority ≤ b.priority) && prioritiesSorted (b :: rest)

/-! ### Concrete instances used by closed theorems and witnesses -/

/-- A system with both pointers set, a given ID and priority, and an
error-free `Update()`. -/
def exSys (id : Nat) (priority : Int) : GoSystem Unit :=
  ⟨id, priority, true, true, none⟩

/-- A component lookup for witnesses: every entity holds component value
equal to its own ID. -/
def witnessGet : EntityID → Option Nat := fun id => some id

/-- A filter for witnesses: accepts every component value. -/
def witnessAccept : Filter Nat := fun _ => true

/-- A consumer for witnesses: records the entity, then stops at once. -/
def witnessStopNow : List EntityID → EntityID → List EntityID × Bool :=
  fun s id => (s ++ [id], false)

/-- Witness system: updatable, ID 1, no error. -/
def wSysOk : GoSystem Nat := ⟨1, 0, true, true, none⟩

/-- Witness system: not updatable (nil game pointer), ID 2; its error
would be 9 were it ever run. -/
def wSysSkip : GoSystem Nat := ⟨2, 0, false, true, some 9⟩

/-- Witness system: updatable, ID 3, `Update()` returns error 7. -/
def wSysErr : GoSystem Nat := ⟨3, 0, true, true, some 7⟩

/-- Witness system: updatable, ID 4, no error; placed after the failing
system. -/
def wSysLate : GoSystem Nat := ⟨4, 0, true, true, none⟩

/-! ## Helper lemmas -/

theorem whereRun_collect_state {C : Type} (get : EntityID → Option C)
    (filter : Filter C) (src : List EntityID) (acc : List EntityID) :
    whereRun get filter collect src acc =
      ⟨acc ++ src.filter (whereKeeps get filter), src.length, false⟩ := by
  induction src generalizing acc with
  | nil => simp [whereRun]
  | cons id rest ih =>
    cases hget : get id with
    | none =>
      simp [whereRun, hget, ih, List.filter, whereKeeps]
    | some comp =>
      by_cases hf : filter comp
      · simp [whereRun, hget, hf, collect, ih, List.filter, whereKeeps,
          List.append_assoc]
      · simp [whereRun, hget, hf, ih, List.filter, whereKeeps]

theorem findSlot_isSome (l : List EntityID) (id : EntityID) :
    (findSlot l id).isSome = true ↔ id ∈ l := by
  induction l with
  | nil => simp [findSlot]
  | cons e rest ih =>
    by_cases he : e = id
    · simp [findSlot, he]
    · have hne : (e == id) = false := by simp [he]
      simp [findSlot, hne, Option.isSome_map, ih, List.mem_cons,
        (Ne.symm he)]

theorem findSlot_lt_length (l : List EntityID) (id : EntityID) (k : Nat)
    (h : findSlot l id = some k) : k < l.length := by
  induction l generalizing k with
  | nil => simp [findSlot] at h
  | cons e rest ih =>
    by_cases he : (e == id) = true
    · rw [findSlot, if_pos he] at h
      injection h with h
      simp [← h]
    · simp only [findSlot, he, if_false, Bool.false_eq_true] at h
      cases hf : findSlot rest id with
      | none => rw [hf] at h; simp at h
      | some m =>
        rw [hf] at h
        simp at h
        have := ih m hf
        simp only [List.length_cons]
        omega

theorem findSlot_append_self (l : List EntityID) (id : EntityID)
    (h : id ∉ l) : findSlot (l ++ [id]) id = some l.length := by
  induction l with
  | nil => simp [findSlot]
  | cons e rest ih =>
    have hid : ¬id = e ∧ id ∉ rest := by simpa [not_or] using h
    have hne : (e == id) = false := by
      simp only [beq_eq_false_iff_ne, ne_eq]
      exact fun hee => hid.1 hee.symm
    simp [findSlot, hne, ih hid.2]

theorem slotOf_isSome_iff_mem {C : Type} (s : Store C) (id : EntityID) :
    (s.slotOf id).isSome = true ↔ id ∈ s.dense :=
  findSlot_isSome s.dense id

theorem And_eq_all {C : Type} (fs : List (Filter C)) (v : C) :
    And fs v = true ↔ ∀ f ∈ fs, f v = true := by
  induction fs with
  | nil => simp [And]
  | cons f rest ih =>
    cases hf : f v with
    | false => simp [And, hf]
    | true => simp [And, hf, ih]

theorem Or_eq_any {C : Type} (fs : List (Filter C)) (v : C) :
    Or fs v = true ↔ ∃ f ∈ fs, f v = true := by
  induction fs with
  | nil => simp [Or]
  | cons f rest ih =>
    cases hf : f v with
    | false => simp [Or, hf, ih]
    | true => simp [Or, hf]

theorem mem_query2Driver {C₁ C₂ : Type} (s₁ : Store C₁) (s₂ : Store C₂)
    (d : Bool) (e : EntityID) :
    e ∈ query2Driver s₁ s₂ d ↔ e ∈ s₁.dense ∧ e ∈ s₂.dense := by
  cases d <;>
    simp [query2Driver, List.mem_filter, slotOf_isSome_iff_mem,
      Store.slotOf, findSlot_isSome, and_comm]

theorem updateLoop_no_error {ε : Type} (l : List (GoSystem ε))
    (h : ∀ s ∈ l, canUpdate s = true → s.updateResult = none) :
    updateLoop l = ((l.filter canUpdate).map GoSystem.id, none) := by
  induction l with
  | nil => rfl
  | cons s rest ih =>
    have hrest := fun t ht => h t (List.mem_cons_of_mem _ ht)
    cases hc : canUpdate s with
    | false => simp [updateLoop, hc, ih hrest]
    | true =>
      have hnone := h s (List.mem_cons_self s rest) hc
      simp [updateLoop, hc, hnone, ih hrest]

theorem updateLoop_first_error {ε : Type} (pre post : List (GoSystem ε))
    (s : GoSystem ε) (e : ε)
    (hpre : ∀ t ∈ pre, canUpdate t = true → t.updateResult = none)
    (hs : canUpdate s = true) (he : s.updateResult = some e) :
    updateLoop (pre ++ s :: post) =
      ((pre.filter canUpdate).map GoSystem.id ++ [s.id], some (s.id, e)) := by
  induction pre with
  | nil => simp [updateLoop, hs, he]
  | cons t rest ih =>
    have hrest := fun u hu => hpre u (List.mem_cons_of_mem _ hu)
    cases hc : canUpdate t with
    | false => simp [updateLoop, hc, ih hrest]
    | true =>
      have hnone := hpre t (List.mem_cons_self t rest) hc
      simp [updateLoop, hc, hnone, ih hrest]

/-! ## Claim theorems -/

/-- C1: for every pair of stores, the entity set yielded by
`Query2<C1,C2>` equals the set-intersection of the sets yielded by
`Query<C1>` and `Query<C2>`, and the yielded set is the same whichever of
the two stores is chosen as the iteration driver. -/
theorem query2_eq_intersection {C₁ C₂ : Type} (s₁ : Store C₁)
    (s₂ : Store C₂) (e : EntityID) :
    (e ∈ query2 s₁ s₂ ↔ e ∈ query s₁ ∧ e ∈ query s₂) ∧
    (∀ d d' : Bool,
      e ∈ query2Driver s₁ s₂ d ↔ e ∈ query2Driver s₁ s₂ d') := by
  constructor
  · rw [query2, mem_query2Driver]
    exact Iff.rfl
  · intro d d'
    rw [mem_query2Driver, mem_query2Driver]

/-- C2: `Where` yields exactly those input entities that hold a `C`
component accepted by the filter, in input order (the output is the
`List.filter` of the input); entities lacking `C` are skipped without
error, the whole source is consumed, and the loop never breaks when the
consumer keeps accepting. -/
theorem where_yields_filtered_in_order {C : Type}
    (get : EntityID → Option C) (filter : Filter C)
    (src : List EntityID) :
    whereRun get filter collect src [] =
      ⟨src.filter (whereKeeps get filter), src.length, false⟩ := by
  simpa using whereRun_collect_state get filter src []

/-- C3: `And`, `Or` and `Not` are the pointwise boolean connectives:
`And [f, g] v = f v && g v`, `Or [f, g] v = f v || g v`,
`Not f v = !f v`; and in general `And` of a filter list holds iff every
listed filter holds, `Or` iff at least one does. -/
theorem filter_algebra_pointwise {C : Type} (f g : Filter C) (v : C)
    (fs : List (Filter C)) :
    (And [f, g] v = (f v && g v)) ∧
    (Or [f, g] v = (f v || g v)) ∧
    (Not f v = !(f v)) ∧
    (And fs v = true ↔ ∀ p ∈ fs, p v = true) ∧
    (Or fs v = true ↔ ∃ p ∈ fs, p v = true) := by
  refine ⟨?_, ?_, rfl, And_eq_all fs v, Or_eq_any fs v⟩
  · cases hf : f v <;> cases hg : g v <;> simp [And, hf, hg]
  · cases hf : f v <;> cases hg : g v <;> simp [Or, hf, hg]

/-- C4: after `Add`, `Get` reports the component present at the returned
slot (a valid reference: the slot is inside the store), and a second `Add`
on the same entity returns the very same store and slot, so the reference
is unchanged and `Count()` is unchanged (idempotence). -/
theorem add_idempotent {C : Type} (s : Store C) (id : EntityID)
    (init : C) :
    ((s.add id init).1.get id = some (s.add id init).2) ∧
    ((s.add id init).2 < (s.add id init).1.count) ∧
    ((s.add id init).1.add id init = ((s.add id init).1, (s.add id init).2)) ∧
    (((s.add id init).1.add id init).1.count = (s.add id init).1.count) := by
  cases h : s.slotOf id with
  | some slot =>
    have hadd : s.add id init = (s, slot) := by
      simp [Store.add, h]
    refine ⟨?_, ?_, ?_, ?_⟩ <;> rw [hadd]
    · exact h
    · exact findSlot_lt_length s.dense id slot h
    · simp [Store.add, h]
    · simp [Store.add, h]
  | none =>
    have hnotmem : id ∉ s.dense := by
      intro hm
      have := (slotOf_isSome_iff_mem s id).mpr hm
      rw [h] at this
      simp at this
    have hadd : s.add id init =
        (⟨s.dense ++ [id], s.pool ++ [init]⟩, s.dense.length) := by
      simp [Store.add, h]
    have hfind : findSlot (s.dense ++ [id]) id = some s.dense.length :=
      findSlot_append_self s.dense id hnotmem
    refine ⟨?_, ?_, ?_, ?_⟩ <;> rw [hadd]
    · exact hfind
    · simp [Store.count]
    · simp [Store.add, Store.slotOf, hfind]
    · simp [Store.add, Store.slotOf, hfind]

/-- C5: `WithinRadiusCheck` holds iff the squared distance to the center
is at most the squared radius (inclusive boundary, no square root), and on
the spec's scenarios: position `(3,4)` is within radius 5 of the origin,
position `(4,5)` is not. -/
theorem withinRadius_spec :
    (∀ posX posY centerX centerY radius : ℚ,
        WithinRadiusCheck posX posY centerX centerY radius = true ↔
          (posX - centerX) ^ 2 + (posY - centerY) ^ 2 ≤ radius ^ 2) ∧
    WithinRadiusCheck 3 4 0 0 5 = true ∧
    WithinRadiusCheck 4 5 0 0 5 = false := by
  refine ⟨fun posX posY centerX centerY radius => ?_,
    by norm_num [WithinRadiusCheck], by norm_num [WithinRadiusCheck]⟩
  simp [WithinRadiusCheck, pow_two]

/-- C6: `WithinBoundsCheck` holds iff the position lies inside the
axis-aligned box with both boundaries inclusive, and on the spec's
scenarios: `(5,5)` is inside the box `0,0,10,10`, `(15,5)` is not. -/
theorem withinBounds_spec :
    (∀ posX posY minX minY maxX maxY : ℚ,
        WithinBoundsCheck posX posY minX minY maxX maxY = true ↔
          (minX ≤ posX ∧ posX ≤ maxX ∧ minY ≤ posY ∧ posY ≤ maxY)) ∧
    WithinBoundsCheck 5 5 0 0 10 10 = true ∧
    WithinBoundsCheck 15 5 0 0 10 10 = false := by
  refine ⟨fun posX posY minX minY maxX maxY => ?_, by decide, by decide⟩
  simp [WithinBoundsCheck, and_assoc]

/-- C7: when the consumer's yield returns `false`, `Where` stops: running
the loop over an extended source `src₁ ++ src₂` gives exactly the outcome
of running it over `src₁` alone — same final consumer state (no further
entity is yielded) and same pull count (no further entity is pulled from
the source). -/
theorem where_early_termination {C σ : Type} (get : EntityID → Option C)
    (filter : Filter C) (yield : σ → EntityID → σ × Bool)
    (src₁ src₂ : List EntityID) (s : σ)
    (h : (whereRun get filter yield src₁ s).stopped = true) :
    whereRun get filter yield (src₁ ++ src₂) s =
      whereRun get filter yield src₁ s := by
  induction src₁ generalizing s with
  | nil => simp [whereRun] at h
  | cons id rest ih =>
    cases hget : get id with
    | none =>
      have h' : (whereRun get filter yield rest s).stopped = true := by
        simpa [whereRun, hget] using h
      simp [whereRun, hget, ih s h']
    | some comp =>
      by_cases hf : filter comp = true
      · rcases hy : yield s id with ⟨s', b⟩
        cases b with
        | false => simp [whereRun, hget, hf, hy]
        | true =>
          have h' : (whereRun get filter yield rest s').stopped = true := by
            simpa [whereRun, hget, hf, hy] using h
          simp [whereRun, hget, hf, hy, ih s' h']
      · have h' : (whereRun get filter yield rest s).stopped = true := by
          simpa [whereRun, hget, hf] using h
        simp [whereRun, hget, hf, ih s h']

/-- Witness for C7 at a concrete input: the consumer stops on the first
yielded entity of `[5]`, and extending the source by `[6, 7]` changes
nothing about the run. -/
theorem where_early_termination_witness :
    ((whereRun witnessGet witnessAccept witnessStopNow [5]
        ([] : List EntityID)).stopped = true) ∧
    whereRun witnessGet witnessAccept witnessStopNow ([5] ++ [6, 7]) [] =
      whereRun witnessGet witnessAccept witnessStopNow [5] [] :=
  ⟨by decide,
    where_early_termination witnessGet witnessAccept witnessStopNow
      [5] [6, 7] [] (by decide)⟩

/-- C8: `And` of the empty filter list accepts every value (identity of
conjunction) and `Or` of the empty filter list rejects every value
(identity of disjunction). -/
theorem empty_filter_identities {C : Type} (v : C) :
    And ([] : List (Filter C)) v = true ∧
    Or ([] : List (Filter C)) v = false :=
  ⟨rfl, rfl⟩

/-- C9: the systems slice is sorted by nondecreasing priority after
`NewSystemManager` and after `Add`, but `Remove` swap-deletes without
re-sorting: removing system 1 from the priority-sorted slice
`[(id 1, prio 1), (id 2, prio 2), (id 3, prio 3)]` moves the
priority-3 system to the front, leaving priorities `[3, 2]` — the claimed
invariant is violated by `Remove`. -/
theorem remove_breaks_priority_order :
    prioritiesSorted ((newSystemManager Unit true true).add
        [exSys 1 1, exSys 2 2, exSys 3 3]).systems = true ∧
    ((newSystemManager Unit true true).add
        [exSys 1 1, exSys 2 2, exSys 3 3]).remove 1 =
      ⟨[exSys 3 3, exSys 2 2], true, true⟩ ∧
    prioritiesSorted ([exSys 3 3, exSys 2 2] :
        List (GoSystem Unit)) = false := by
  refine ⟨by decide, by decide, by decide⟩

/-- C10: `SystemManager.Update` runs the stored systems in slice order,
skipping exactly those whose entity-manager or game pointer is nil; if no
runnable system errs it returns nil after updating them all, and at the
first system whose `Update` errs it returns that error wrapped with the
failing system's ID, updating no later system. -/
theorem update_runs_in_order_until_error :
    (∀ (ε : Type) (sm : SystemManager ε),
        (∀ s ∈ sm.systems, canUpdate s = true → s.updateResult = none) →
        sm.update = ((sm.systems.filter canUpdate).map GoSystem.id, none)) ∧
    (∀ (ε : Type) (sm : SystemManager ε) (pre post : List (GoSystem ε))
        (s : GoSystem ε) (e : ε),
        sm.systems = pre ++ s :: post →
        (∀ t ∈ pre, canUpdate t = true → t.updateResult = none) →
        canUpdate s = true → s.updateResult = some e →
        sm.update = ((pre.filter canUpdate).map GoSystem.id ++ [s.id],
          some (s.id, e))) := by
  constructor
  · intro ε sm h
    exact updateLoop_no_error sm.systems h
  · intro ε sm pre post s e hsys hpre hs he
    rw [SystemManager.update, hsys]
    exact updateLoop_first_error pre post s e hpre hs he

/-- Witness for C10 at concrete inputs: with systems `[ok(1), skip(2)]`
the update returns nil having run only system 1; with
`[ok(1), skip(2), err(3), late(4)]` it returns error 7 wrapped with ID 3,
having run systems 1 and 3 and never reaching system 4. -/
theorem update_runs_in_order_until_error_witness :
    SystemManager.update
        (⟨[wSysOk, wSysSkip], true, true⟩ : SystemManager Nat) =
      ([1], none) ∧
    SystemManager.update
        (⟨[wSysOk, wSysSkip, wSysErr, wSysLate], true, true⟩ :
          SystemManager Nat) =
      ([1, 3], some (3, 7)) := by
  constructor
  · exact (update_runs_in_order_until_error.1 Nat
      ⟨[wSysOk, wSysSkip], true, true⟩ (by decide)).trans (by decide)
  · exact (update_runs_in_order_until_error.2 Nat
      ⟨[wSysOk, wSysSkip, wSysErr, wSysLate], true, true⟩
      [wSysOk, wSysSkip] [wSysLate] wSysErr 7 rfl (by decide) (by decide)
      (by decide)).trans (by decide)

end EbitenEcs
